import Mathlib

/-!
Verification of the EdgeSync repository layer (Go) against its specification.

We shallowly embed the three stores:
* the Postgres-backed encrypted-state repository (`state_repo.go`), with the
  table modelled as a list of rows and the SQL statements (conditional
  UPDATE, INSERT under the UNIQUE(account_id, key) constraint, filtered and
  ordered SELECT) given explicit list semantics;
* the Redis-backed session repository (`session_repo.go`), with the Redis
  string keyspace modelled as an association list carrying per-key expiry
  and the account index modelled as Redis sets;
* the Redis-backed presence repository (`presence_repo.go`).

UUIDs are modelled as `Nat`, byte strings as `List Nat`, and instants as
`Int` (comparisons are all that matter).  Go `error` values are modelled by
`RepoError`, with `RepoError.is` playing the role of `errors.Is` through
`fmt.Errorf("...: %w", err)` wrapping.
-/

namespace EdgeSync

/-- Model of the Go error values produced by the repositories.  `wrap`
models `fmt.Errorf` with a `%w` verb, `store` models an opaque error coming
from the underlying store (pgx or go-redis). -/
inductive RepoError : Type where
  | notFound : RepoError
  | versionConflict : RepoError
  | store : String → RepoError
  | wrap : String → RepoError → RepoError
deriving DecidableEq

/-- Model of Go `errors.Is`: an error matches a target if it equals it or
wraps (transitively) an error equal to it. -/
def RepoError.is : RepoError → RepoError → Bool
  | RepoError.wrap m c, t => (RepoError.wrap m c == t) || RepoError.is c t
  | e, t => e == t

/-! ## State store: `internal/repositories/state_repo.go` over Postgres -/

/-- Row of the `encrypted_states` table / `models.EncryptedState`. -/
structure EncryptedState : Type where
  id : Nat
  accountID : Nat
  deviceID : Nat
  key : String
  state : List Nat
  nonce : List Nat
  version : Int
  createdAt : Int
  updatedAt : Option Int
  deletedAt : Option Int
deriving DecidableEq

/-- The `encrypted_states` table: the rows, plus the generator used for
`DEFAULT gen_random_uuid()` ids (fresh ids are `nextID`, `nextID + 1`, ...). -/
structure StateDB : Type where
  rows : List EncryptedState
  nextID : Nat
deriving DecidableEq

/-- WHERE clause of `GetByKey`: `account_id = $1 AND key = $2 AND deleted_at IS NULL`. -/
def activeKeyMatch (a : Nat) (k : String) (r : EncryptedState) : Bool :=
  (r.accountID == a && r.key == k) && r.deletedAt == none

/-- Operation `GetByKey`: single-row lookup of the non-deleted row for (account, key).
`QueryRow` returns the first matching row; `pgx.ErrNoRows` is modelled by
`none` (the repository maps it to `ErrNotFound`). -/
def GetByKey (db : StateDB) (a : Nat) (k : String) : Option EncryptedState :=
  db.rows.find? (activeKeyMatch a k)

/-- The UNIQUE(account_id, key) constraint from
`migrations/000003_create_encrypted_states.up.sql`: it ranges over all rows,
soft-deleted ones included. -/
def keyRowExists (db : StateDB) (a : Nat) (k : String) : Bool :=
  db.rows.any (fun r => r.accountID == a && r.key == k)

/-- The row the INSERT statement of `create` adds: candidate data, version 1
(a literal in the SQL), generated id, `created_at = NOW()`, NULL
`updated_at` and `deleted_at`. -/
def insertedRow (db : StateDB) (cand : EncryptedState) (now : Int) : EncryptedState :=
  { id := db.nextID, accountID := cand.accountID, deviceID := cand.deviceID,
    key := cand.key, state := cand.state, nonce := cand.nonce,
    version := 1, createdAt := now, updatedAt := none, deletedAt := none }

/-- Operation `create`: `INSERT INTO encrypted_states ... VALUES ($1,...,$5, 1)
RETURNING id, version, created_at, updated_at`.  The candidate is populated
from the RETURNING clause; an insert violating the uniqueness constraint
fails with a wrapped store error. -/
def create (db : StateDB) (cand : EncryptedState) (now : Int) :
    StateDB × Except RepoError EncryptedState :=
  if keyRowExists db cand.accountID cand.key then
    (db, Except.error (RepoError.wrap (r"failed to create state")
      (RepoError.store (r"duplicate key value violates unique constraint"))))
  else
    ({ rows := db.rows ++ [insertedRow db cand now], nextID := db.nextID + 1 },
     Except.ok { cand with id := db.nextID, version := 1, createdAt := now, updatedAt := none })

/-- WHERE clause of `update`: `id = $4 AND version = $5 AND deleted_at IS NULL`,
with `$5` the candidate's expected version. -/
def updCond (cand : EncryptedState) (exID : Nat) (r : EncryptedState) : Bool :=
  (r.id == exID && r.version == cand.version) && r.deletedAt == none

/-- SET clause of `update`: overwrite device/state/nonce, `version = version + 1`,
`updated_at = NOW()`. -/
def applyUpd (cand : EncryptedState) (now : Int) (r : EncryptedState) : EncryptedState :=
  { r with deviceID := cand.deviceID, state := cand.state, nonce := cand.nonce,
           version := r.version + 1, updatedAt := some now }

/-- Operation `update`: the single conditional UPDATE with the optimistic-locking WHERE
clause.  Zero matched rows surface as `pgx.ErrNoRows` on the RETURNING scan,
which the repository maps to `ErrVersionConflict`; on success the candidate
gets the existing row's id, the new version and the new update timestamp. -/
def update (db : StateDB) (cand : EncryptedState) (exID : Nat) (now : Int) :
    StateDB × Except RepoError EncryptedState :=
  match db.rows.find? (updCond cand exID) with
  | none => (db, Except.error RepoError.versionConflict)
  | some r =>
      ({ db with rows := db.rows.map (fun x => if updCond cand exID x then applyUpd cand now x else x) },
       Except.ok { cand with id := exID, version := r.version + 1, updatedAt := some now })

/-- Operation `Upsert`: read the existing non-deleted row for (account, key); insert
when there is none, otherwise run the conditional update against the row's id. -/
def Upsert (db : StateDB) (cand : EncryptedState) (now : Int) :
    StateDB × Except RepoError EncryptedState :=
  match GetByKey db cand.accountID cand.key with
  | none => create db cand now
  | some ex => update db cand ex.id now

/-- Operation `Delete`: `UPDATE encrypted_states SET deleted_at = NOW() WHERE id = $1
AND deleted_at IS NULL`; zero affected rows yield `ErrNotFound`. -/
def StateDelete (db : StateDB) (id : Nat) (now : Int) : StateDB × Except RepoError Unit :=
  if db.rows.any (fun r => r.id == id && r.deletedAt == none) then
    ({ db with rows := db.rows.map (fun r =>
        if r.id == id && r.deletedAt == none then { r with deletedAt := some now } else r) },
     Except.ok ())
  else
    (db, Except.error RepoError.notFound)

/-- Operation `GetByAccountID`: `SELECT ... WHERE account_id = $1 AND deleted_at IS NULL
ORDER BY key ASC`. -/
def GetByAccountID (db : StateDB) (a : Nat) : List EncryptedState :=
  (db.rows.filter (fun r => r.accountID == a && r.deletedAt == none)).mergeSort
    (fun x y => decide (x.key ≤ y.key))

/-! ## Redis model, shared by the session and presence repositories

The string keyspace is an association list from keys to values carrying an
optional absolute expiry instant; a key whose expiry has been reached reads
as absent.  `goRedisSetArgs` models how the go-redis client builds the `SET`
command from the `expiration` argument: a positive duration becomes an `EX`
argument, any other duration produces a plain `SET` without expiry (the
special `KeepTTL` sentinel, `-1ns`, is never produced by the repositories).
`rset` models the server: an `EX` argument must be positive or the command
fails. -/

/-- A stored Redis value with its optional absolute expiry instant. -/
structure RVal (α : Type) : Type where
  val : α
  expireAt : Option Int
deriving DecidableEq

/-- The Redis string keyspace for values of type `α`. -/
abbrev RKV (α : Type) := List (String × RVal α)

/-- Replace the binding for a key, or append it. -/
def setAssoc {α : Type} : RKV α → String → RVal α → RKV α
  | [], k, v => [(k, v)]
  | (k', v') :: rest, k, v =>
      if k' == k then (k, v) :: rest else (k', v') :: setAssoc rest k v

/-- First binding for a key, if any (ignoring expiry). -/
def getAssoc {α : Type} : RKV α → String → Option (RVal α)
  | [], _ => none
  | (k', v') :: rest, k => if k' == k then some v' else getAssoc rest k

/-- Command `DEL`: remove a key (a no-op when absent). -/
def delAssoc {α : Type} : RKV α → String → RKV α
  | [], _ => []
  | (k', v') :: rest, k =>
      if k' == k then delAssoc rest k else (k', v') :: delAssoc rest k

/-- The expiration part of a `SET` command as built by go-redis. -/
inductive SetExpiry : Type where
  | ex : Int → SetExpiry
  | plain : SetExpiry
deriving DecidableEq

/-- go-redis `Set`: `expiration > 0` yields an `EX`/`PX` argument, any other
expiration yields a plain `SET` (no expiry). -/
def goRedisSetArgs (ttl : Int) : SetExpiry :=
  if ttl > 0 then SetExpiry.ex ttl else SetExpiry.plain

/-- The Redis server executing `SET`: `EX` with a non-positive duration is
rejected (`invalid expire time`); otherwise the key is written, a plain `SET`
clearing any previous expiry. -/
def rset {α : Type} (kv : RKV α) (now : Int) (k : String) (v : α) :
    SetExpiry → Except RepoError (RKV α)
  | SetExpiry.ex t =>
      if t ≤ 0 then Except.error (RepoError.store (r"invalid expire time in set"))
      else Except.ok (setAssoc kv k ⟨v, some (now + t)⟩)
  | SetExpiry.plain => Except.ok (setAssoc kv k ⟨v, none⟩)

/-- A stored value is live at `now` iff it has no expiry or its expiry is
still in the future. -/
def isLive {α : Type} (now : Int) (v : RVal α) : Bool :=
  match v.expireAt with
  | none => true
  | some t => now < t

/-- Command `GET` at instant `now`: an expired or absent key reads as `nil`. -/
def rget {α : Type} (kv : RKV α) (now : Int) (k : String) : Option α :=
  match getAssoc kv k with
  | none => none
  | some v => if isLive now v then some v.val else none

/-- Redis sets (used for the account → session-id index); sets are written
without expiry by the session repository. -/
abbrev RSets := List (String × List String)

/-- Members of a set key (`SMEMBERS`); an absent key is the empty set. -/
def getSet : RSets → String → List String
  | [], _ => []
  | (k', v) :: rest, k => if k' == k then v else getSet rest k

/-- Replace the binding for a set key, or append it. -/
def putSet : RSets → String → List String → RSets
  | [], k, v => [(k, v)]
  | (k', v') :: rest, k, v =>
      if k' == k then (k, v) :: rest else (k', v') :: putSet rest k v

/-- Command `SADD` of a single member. -/
def sadd (s : RSets) (k : String) (m : String) : RSets :=
  let cur := getSet s k
  if cur.contains m then s else putSet s k (cur ++ [m])

/-- Command `SREM` of a list of members. -/
def srem (s : RSets) (k : String) (ms : List String) : RSets :=
  putSet s k ((getSet s k).filter (fun x => !(ms.contains x)))

/-! ## Session store: `internal/repositories/session_repo.go` -/

/-- Model of `models.Session`. -/
structure Session : Type where
  id : String
  accountID : Nat
  deviceID : Nat
  expiresAt : Int
  createdAt : Int
deriving DecidableEq

/-- The session repository's view of Redis: the `session:{id}` string keys
(JSON (de)serialisation of sessions is modelled as the identity, since the
repository only ever stores marshalled sessions under these keys) and the
`account:{id}:sessions` set keys. -/
structure SessionStore : Type where
  kv : RKV Session
  sets : RSets
deriving DecidableEq

/-- Key `"session:{id}"`. -/
def sessionKey (id : String) : String := r"session:" ++ id

/-- Key `"account:{id}:sessions"`. -/
def accountSessionsKey (a : Nat) : String := r"account:" ++ toString a ++ r":sessions"

namespace SessionRepo

/-- Operation `Create`: marshal the session, compute `ttl := time.Until(ExpiresAt)`,
`SET session:{id}` with that expiration, then `SADD` the id into the owning
account's index set. -/
def Create (st : SessionStore) (now : Int) (s : Session) : Except RepoError SessionStore :=
  let ttl := s.expiresAt - now
  match rset st.kv now (sessionKey s.id) s (goRedisSetArgs ttl) with
  | Except.error e => Except.error (RepoError.wrap (r"failed to set session") e)
  | Except.ok kv =>
      Except.ok { kv := kv, sets := sadd st.sets (accountSessionsKey s.accountID) s.id }

/-- Operation `GetByID`: `GET session:{id}`, mapping `redis.Nil` to `ErrNotFound`. -/
def GetByID (st : SessionStore) (now : Int) (id : String) : Except RepoError Session :=
  match rget st.kv now (sessionKey id) with
  | none => Except.error RepoError.notFound
  | some s => Except.ok s

/-- The member loop of `ListByAccountID`: look every member id up in the
primary keyspace, accumulating (in order) the sessions found live and the
ids found missing (`redis.Nil`). -/
def listLoop (kv : RKV Session) (now : Int) : List String → List Session × List String
  | [] => ([], [])
  | id :: rest =>
      match rget kv now (sessionKey id) with
      | none =>
          let p := listLoop kv now rest
          (p.1, id :: p.2)
      | some s =>
          let p := listLoop kv now rest
          (s :: p.1, p.2)

/-- Operation `ListByAccountID`: `SMEMBERS` of the account index, the member loop, then
one `SREM` of the ids found missing (skipped when there are none). -/
def ListByAccountID (st : SessionStore) (now : Int) (a : Nat) :
    SessionStore × List Session :=
  if (listLoop st.kv now (getSet st.sets (accountSessionsKey a))).2.isEmpty then
    (st, (listLoop st.kv now (getSet st.sets (accountSessionsKey a))).1)
  else
    ({ st with sets := srem st.sets (accountSessionsKey a) (listLoop st.kv now (getSet st.sets (accountSessionsKey a))).2 },
     (listLoop st.kv now (getSet st.sets (accountSessionsKey a))).1)

/-- Operation `Delete`: `GetByID` first (to learn the owning account); on any lookup
error return it wrapped, without touching the index; otherwise `SREM` the id
from the account index, then `DEL` the primary key. -/
def Delete (st : SessionStore) (now : Int) (id : String) :
    SessionStore × Except RepoError Unit :=
  match GetByID st now id with
  | Except.error e => (st, Except.error (RepoError.wrap (r"failed to get session") e))
  | Except.ok s =>
      ({ kv := delAssoc st.kv (sessionKey id),
         sets := srem st.sets (accountSessionsKey s.accountID) [id] },
       Except.ok ())

/-- Operation `DeleteAllForAccount`: `SMEMBERS` of the account index, then `Delete`
each member, printing and ignoring per-member failures; always returns `nil`. -/
def DeleteAllForAccount (st : SessionStore) (now : Int) (a : Nat) :
    SessionStore × Except RepoError Unit :=
  let members := getSet st.sets (accountSessionsKey a)
  (members.foldl (fun s id => (Delete s now id).1) st, Except.ok ())

end SessionRepo

/-! ## Presence store: `internal/repositories/presence_repo.go` -/

/-- Model of `models.Presence`. -/
structure Presence : Type where
  accountID : Nat
  deviceID : Nat
  status : String
  lastSeen : Int
deriving DecidableEq

/-- A raw value stored under a presence key: either marshalled presence JSON
or a string that does not unmarshal into a `Presence`. -/
inductive PVal : Type where
  | pres : Presence → PVal
  | garbage : String → PVal
deriving DecidableEq

/-- Model of `json.Unmarshal` into a `Presence`. -/
def decodePresence : PVal → Option Presence
  | PVal.pres p => some p
  | PVal.garbage _ => none

/-- The presence repository's view of Redis. -/
abbrev PresenceStore := RKV PVal

/-- Key `"presence:" + deviceID.String()`. -/
def presenceKey (d : Nat) : String := r"presence:" ++ toString d

/-- Constant `presenceTTL = 60 * time.Second`. -/
def presenceTTL : Int := 60

namespace PresenceRepo

/-- Operation `SetPresence`: stamp `LastSeen = now`, marshal, `SET` with the fixed
presence TTL. -/
def SetPresence (st : PresenceStore) (now : Int) (p : Presence) :
    Except RepoError PresenceStore :=
  let stamped := { p with lastSeen := now }
  match rset st now (presenceKey p.deviceID) (PVal.pres stamped) (goRedisSetArgs presenceTTL) with
  | Except.error e => Except.error (RepoError.wrap (r"failed to set presence") e)
  | Except.ok kv => Except.ok kv

/-- The explicit offline record `GetPresence` builds on `redis.Nil`:
zero-value account id, status `offline`, zero (unknown) last-seen. -/
def offlinePresence (d : Nat) : Presence :=
  { accountID := 0, deviceID := d, status := r"offline", lastSeen := 0 }

/-- Operation `GetPresence`: `redis.Nil` becomes the explicit offline record; a value
that fails to unmarshal is a wrapped store error. -/
def GetPresence (st : PresenceStore) (now : Int) (d : Nat) : Except RepoError Presence :=
  match rget st now (presenceKey d) with
  | none => Except.ok (offlinePresence d)
  | some v =>
      match decodePresence v with
      | none => Except.error (RepoError.wrap (r"failed to unmarshal presence")
          (RepoError.store (r"invalid json")))
      | some p => Except.ok p

/-- Operation `DeletePresence`: `DEL` the presence key. -/
def DeletePresence (st : PresenceStore) (d : Nat) : PresenceStore :=
  delAssoc st (presenceKey d)

/-- The per-device result of the `GetBulkPresence` loop body: the `MGET`
result for the device's key is either `nil` (offline default), a value that
fails to unmarshal (offline default, per the in-code comment), or a live
presence. -/
def bulkVal (st : PresenceStore) (now : Int) (d : Nat) : Presence :=
  match rget st now (presenceKey d) with
  | none => offlinePresence d
  | some v =>
      match decodePresence v with
      | none => offlinePresence d
      | some p => p

/-- The Go `map[uuid.UUID]models.Presence`, as an association list with
assignment overwriting the existing binding. -/
abbrev PresenceMap := List (Nat × Presence)

/-- Go map assignment `m[k] = v`. -/
def mapPut : PresenceMap → Nat → Presence → PresenceMap
  | [], k, v => [(k, v)]
  | (k', v') :: rest, k, v =>
      if k' == k then (k, v) :: rest else (k', v') :: mapPut rest k v

/-- Go map lookup `m[k]`. -/
def mapGet : PresenceMap → Nat → Option Presence
  | [], _ => none
  | (k', v') :: rest, k => if k' == k then some v' else mapGet rest k

/-- Operation `GetBulkPresence`: one `MGET` over the keys of all requested ids, then
the per-result loop filling the map (an empty request yields the empty map,
exactly as the early return does). -/
def GetBulkPresence (st : PresenceStore) (now : Int) (ids : List Nat) : PresenceMap :=
  ids.foldl (fun m d => mapPut m d (bulkVal st now d)) []

end PresenceRepo

/-! ## Concrete stores used to evaluate the operations on explicit inputs -/

/-- A live row at version 3 for account 1, key `k`. -/
def rowW : EncryptedState :=
  { id := 10, accountID := 1, deviceID := 2, key := r"k", state := [1], nonce := [2],
    version := 3, createdAt := 0, updatedAt := none, deletedAt := none }

/-- A one-row table holding `rowW`. -/
def dbW : StateDB := { rows := [rowW], nextID := 11 }

/-- A candidate carrying the matching expected version 3. -/
def candW : EncryptedState :=
  { id := 0, accountID := 1, deviceID := 5, key := r"k", state := [9], nonce := [8],
    version := 3, createdAt := 0, updatedAt := none, deletedAt := none }

/-- A candidate carrying the stale expected version 2. -/
def candStale : EncryptedState := { candW with version := 2 }

/-- A soft-deleted row for account 1, key `k` (deleted at instant 7). -/
def rowDel : EncryptedState :=
  { id := 4, accountID := 1, deviceID := 2, key := r"k", state := [3], nonce := [4],
    version := 2, createdAt := 0, updatedAt := none, deletedAt := some 7 }

/-- A table whose only row for (1, `k`) is soft-deleted. -/
def dbSoftDel : StateDB := { rows := [rowDel], nextID := 5 }

/-- A candidate for (1, `k`) presenting expected version 0. -/
def candV0 : EncryptedState :=
  { id := 0, accountID := 1, deviceID := 2, key := r"k", state := [5], nonce := [6],
    version := 0, createdAt := 0, updatedAt := none, deletedAt := none }

/-- An empty table. -/
def dbFresh : StateDB := { rows := [], nextID := 1 }

/-- First candidate of the fresh-key sequence (expected version 0). -/
def candF1 : EncryptedState :=
  { id := 0, accountID := 9, deviceID := 2, key := r"f", state := [1], nonce := [1],
    version := 0, createdAt := 0, updatedAt := none, deletedAt := none }

/-- Second candidate of the fresh-key sequence (expected version 1). -/
def candF2 : EncryptedState := { candF1 with deviceID := 3, version := 1 }

/-- Third candidate of the fresh-key sequence (reusing version 1). -/
def candF3 : EncryptedState := { candF1 with deviceID := 4, version := 1 }

/-- A session id whose primary record has expired. -/
def sidGone : String := r"s1"

/-- A session store where account 7's index still references `sidGone` but
the primary record is gone. -/
def stGone : SessionStore :=
  { kv := [], sets := [(accountSessionsKey 7, [sidGone])] }

/-- A live session id. -/
def sidA : String := r"a"

/-- A session id with no primary record. -/
def sidB : String := r"b"

/-- The live session behind `sidA`. -/
def sLive : Session :=
  { id := sidA, accountID := 7, deviceID := 1, expiresAt := 50, createdAt := 0 }

/-- A store where account 7's index holds one live member and one dead one. -/
def stList : SessionStore :=
  { kv := [(sessionKey sidA, ⟨sLive, some 50⟩)],
    sets := [(accountSessionsKey 7, [sidA, sidB])] }

/-- A dead member of account 7's index. -/
def sidDead : String := r"dead"

/-- A live member of account 7's index. -/
def sidLive : String := r"live"

/-- The live session behind `sidLive`. -/
def sessLive : Session :=
  { id := sidLive, accountID := 7, deviceID := 3, expiresAt := 1000, createdAt := 0 }

/-- A store where account 7's index holds a dead member before a live one. -/
def stMixed : SessionStore :=
  { kv := [(sessionKey sidLive, ⟨sessLive, some 1000⟩)],
    sets := [(accountSessionsKey 7, [sidDead, sidLive])] }

/-- An online presence for device 1, last seen at instant 5. -/
def pOn : Presence :=
  { accountID := 7, deviceID := 1, status := r"online", lastSeen := 5 }

/-- A presence keyspace with one live online record (device 1) and one
unparseable value (device 2). -/
def stPres : PresenceStore :=
  [(presenceKey 1, ⟨PVal.pres pOn, some 65⟩),
   (presenceKey 2, ⟨PVal.garbage (r"x"), some 65⟩)]

/-- An empty presence keyspace. -/
def stEmptyP : PresenceStore := []

/-! ## Helper lemmas about the store primitives -/

theorem getAssoc_setAssoc_self {α : Type} (kv : RKV α) (k : String) (v : RVal α) :
    getAssoc (setAssoc kv k v) k = some v := by
  induction kv with
  | nil => simp [setAssoc, getAssoc]
  | cons hd tl ih =>
      obtain ⟨k', v'⟩ := hd
      by_cases h : k' = k
      · simp [setAssoc, getAssoc, h]
      · simp [setAssoc, getAssoc, h, ih]

theorem getAssoc_delAssoc {α : Type} (kv : RKV α) (k k' : String) :
    getAssoc (delAssoc kv k') k = if k = k' then none else getAssoc kv k := by
  induction kv with
  | nil => simp [delAssoc, getAssoc]
  | cons hd tl ih =>
      obtain ⟨k₀, v₀⟩ := hd
      by_cases h0 : k₀ = k'
      · by_cases h1 : k = k'
        · subst h1
          simp [delAssoc, getAssoc, beq_iff_eq, h0, ih]
        · have h2 : ¬ k₀ = k := fun h => h1 (h ▸ h0)
          have h3 : ¬ k' = k := fun h => h1 h.symm
          simp [delAssoc, getAssoc, beq_iff_eq, h0, h1, h2, h3, ih]
      · by_cases h1 : k₀ = k
        · have hk : ¬ k = k' := fun h => h0 (h1.trans h)
          simp [delAssoc, getAssoc, beq_iff_eq, h0, h1, hk]
        · simp [delAssoc, getAssoc, beq_iff_eq, h0, h1, ih]

theorem rget_delAssoc_none {α : Type} (kv : RKV α) (now : Int) (k k' : String)
    (h : rget kv now k = none) : rget (delAssoc kv k') now k = none := by
  unfold rget at h ⊢
  rw [getAssoc_delAssoc]
  by_cases hk : k = k'
  · simp [hk]
  · simp only [if_neg hk]
    exact h

theorem rget_delAssoc_self {α : Type} (kv : RKV α) (now : Int) (k : String) :
    rget (delAssoc kv k) now k = none := by
  unfold rget
  rw [getAssoc_delAssoc]
  simp

theorem getSet_putSet_self (s : RSets) (k : String) (v : List String) :
    getSet (putSet s k v) k = v := by
  induction s with
  | nil => simp [putSet, getSet]
  | cons hd tl ih =>
      obtain ⟨k', v'⟩ := hd
      by_cases h : k' = k
      · simp [putSet, getSet, h]
      · simp [putSet, getSet, h, ih]

theorem getSet_putSet_ne (s : RSets) (k k' : String) (v : List String)
    (h : k' ≠ k) : getSet (putSet s k v) k' = getSet s k' := by
  have h' : ¬ k = k' := fun hh => h hh.symm
  induction s with
  | nil => simp [putSet, getSet, h']
  | cons hd tl ih =>
      obtain ⟨k₀, v₀⟩ := hd
      by_cases h0 : k₀ = k
      · subst h0
        simp [putSet, getSet, beq_iff_eq, h']
      · simp [putSet, getSet, beq_iff_eq, h0, ih]

theorem getSet_srem_self (s : RSets) (k : String) (ms : List String) :
    getSet (srem s k ms) k = (getSet s k).filter (fun x => !(ms.contains x)) := by
  unfold srem
  exact getSet_putSet_self ..

theorem getSet_srem_ne (s : RSets) (k k' : String) (ms : List String) (h : k' ≠ k) :
    getSet (srem s k ms) k' = getSet s k' := by
  unfold srem
  exact getSet_putSet_ne _ _ _ _ h

theorem listLoop_fst (kv : RKV Session) (now : Int) (l : List String) :
    (SessionRepo.listLoop kv now l).1 =
      l.filterMap (fun id => rget kv now (sessionKey id)) := by
  induction l with
  | nil => simp [SessionRepo.listLoop]
  | cons id rest ih =>
      cases h : rget kv now (sessionKey id) with
      | none => simp [SessionRepo.listLoop, h, ih]
      | some s => simp [SessionRepo.listLoop, h, ih]

theorem listLoop_snd (kv : RKV Session) (now : Int) (l : List String) :
    (SessionRepo.listLoop kv now l).2 =
      l.filter (fun id => (rget kv now (sessionKey id)).isNone) := by
  induction l with
  | nil => simp [SessionRepo.listLoop]
  | cons id rest ih =>
      cases h : rget kv now (sessionKey id) with
      | none => simp [SessionRepo.listLoop, h, ih]
      | some s => simp [SessionRepo.listLoop, h, ih]

/-- go-redis builds identical `SET` commands for a non-positive expiration
and for a zero one: both fall in the plain-`SET` branch. -/
theorem goRedisSetArgs_max (ttl : Int) :
    goRedisSetArgs ttl = goRedisSetArgs (max 0 ttl) := by
  unfold goRedisSetArgs
  rcases le_or_lt ttl 0 with h | h
  · rw [if_neg (by omega), if_neg (by omega)]
  · rw [if_pos h, if_pos (by omega), max_eq_right (by omega)]

theorem mapGet_mapPut_self (m : PresenceRepo.PresenceMap) (k : Nat) (v : Presence) :
    PresenceRepo.mapGet (PresenceRepo.mapPut m k v) k = some v := by
  induction m with
  | nil => simp [PresenceRepo.mapPut, PresenceRepo.mapGet]
  | cons hd tl ih =>
      obtain ⟨k₀, v₀⟩ := hd
      by_cases h0 : k₀ = k
      · simp [PresenceRepo.mapPut, PresenceRepo.mapGet, beq_iff_eq, h0]
      · simp [PresenceRepo.mapPut, PresenceRepo.mapGet, beq_iff_eq, h0, ih]

theorem mapGet_mapPut_ne (m : PresenceRepo.PresenceMap) (k k' : Nat) (v : Presence)
    (h : ¬ k' = k) : PresenceRepo.mapGet (PresenceRepo.mapPut m k v) k' = PresenceRepo.mapGet m k' := by
  have h' : ¬ k = k' := fun hh => h hh.symm
  induction m with
  | nil => simp [PresenceRepo.mapPut, PresenceRepo.mapGet, h']
  | cons hd tl ih =>
      obtain ⟨k₀, v₀⟩ := hd
      by_cases h0 : k₀ = k
      · subst h0
        simp [PresenceRepo.mapPut, PresenceRepo.mapGet, beq_iff_eq, h']
      · simp [PresenceRepo.mapPut, PresenceRepo.mapGet, beq_iff_eq, h0, ih]

theorem mapPut_keys (m : PresenceRepo.PresenceMap) (k : Nat) (v : Presence) :
    ((PresenceRepo.mapPut m k v).map Prod.fst).toFinset =
      insert k ((m.map Prod.fst).toFinset) := by
  induction m with
  | nil => simp [PresenceRepo.mapPut]
  | cons hd tl ih =>
      obtain ⟨k₀, v₀⟩ := hd
      by_cases h0 : k₀ = k
      · subst h0
        simp [PresenceRepo.mapPut]
      · simp only [PresenceRepo.mapPut, beq_iff_eq, if_neg h0, List.map_cons,
          List.toFinset_cons, ih]
        exact Finset.Insert.comm ..

/-- Lookup in the `GetBulkPresence` accumulator loop. -/
theorem bulk_fold_get (st : PresenceStore) (now : Int) (ids : List Nat)
    (acc : PresenceRepo.PresenceMap) (d : Nat) :
    PresenceRepo.mapGet
        (ids.foldl (fun m x => PresenceRepo.mapPut m x (PresenceRepo.bulkVal st now x)) acc) d =
      if d ∈ ids then some (PresenceRepo.bulkVal st now d) else PresenceRepo.mapGet acc d := by
  induction ids generalizing acc with
  | nil => simp
  | cons x rest ih =>
      simp only [List.foldl_cons, ih]
      by_cases hx : d ∈ rest
      · simp [hx, List.mem_cons]
      · by_cases hd : d = x
        · subst hd
          simp [hx, mapGet_mapPut_self]
        · simp [hx, hd, mapGet_mapPut_ne _ _ _ _ hd]

/-- Key set of the `GetBulkPresence` accumulator loop. -/
theorem bulk_fold_keys (st : PresenceStore) (now : Int) (ids : List Nat)
    (acc : PresenceRepo.PresenceMap) :
    (((ids.foldl (fun m x => PresenceRepo.mapPut m x (PresenceRepo.bulkVal st now x)) acc)).map
        Prod.fst).toFinset =
      ids.toFinset ∪ (acc.map Prod.fst).toFinset := by
  induction ids generalizing acc with
  | nil => simp
  | cons x rest ih =>
      simp only [List.foldl_cons, ih, mapPut_keys, List.toFinset_cons]
      ext y
      simp [Finset.mem_union, Finset.mem_insert]

/-- A session id absent from the primary keyspace stays absent across a
single-id `Delete` (of any id). -/
theorem delete_rget_none_mono (st : SessionStore) (now : Int) (id : String) (k : String)
    (h : rget st.kv now k = none) :
    rget ((SessionRepo.Delete st now id).1).kv now k = none := by
  unfold SessionRepo.Delete
  cases hg : SessionRepo.GetByID st now id with
  | error e => simpa [hg] using h
  | ok s =>
      simp only [hg]
      exact rget_delAssoc_none _ _ _ _ h

/-- After `Delete id`, the primary record of `id` is gone (it either was
deleted or had already expired). -/
theorem delete_rget_self (st : SessionStore) (now : Int) (id : String) :
    rget ((SessionRepo.Delete st now id).1).kv now (sessionKey id) = none := by
  unfold SessionRepo.Delete
  cases hg : SessionRepo.GetByID st now id with
  | error e =>
      unfold SessionRepo.GetByID at hg
      cases hr : rget st.kv now (sessionKey id) with
      | none => simp [hg, hr]
      | some s => rw [hr] at hg; exact absurd hg (by simp)
  | ok s =>
      simp only [hg]
      exact rget_delAssoc_self ..

/-- Across the `DeleteAllForAccount` loop: absent keys stay absent, and
every processed member's primary record ends up absent. -/
theorem deleteAll_fold_absent (now : Int) (l : List String) :
    ∀ st : SessionStore,
      (∀ k, rget st.kv now k = none →
        rget ((l.foldl (fun s id => (SessionRepo.Delete s now id).1) st)).kv now k = none) ∧
      (∀ id ∈ l,
        rget ((l.foldl (fun s id => (SessionRepo.Delete s now id).1) st)).kv now
          (sessionKey id) = none) := by
  induction l with
  | nil => intro st; simp
  | cons x rest ih =>
      intro st
      constructor
      · intro k hk
        simp only [List.foldl_cons]
        exact (ih _).1 k (delete_rget_none_mono st now x k hk)
      · intro id hid
        simp only [List.foldl_cons]
        rcases List.mem_cons.mp hid with h | h
        · subst h
          exact (ih _).1 _ (delete_rget_self st now id)
        · exact (ih _).2 id h

theorem find?_eq_none_of_all {α : Type} (l : List α) (p : α → Bool)
    (h : ∀ x ∈ l, p x = false) : l.find? p = none :=
  List.find?_eq_none.mpr (fun x hx => by simp [h x hx])

theorem map_id_of_mem {α : Type} (l : List α) (f : α → α) (h : ∀ x ∈ l, f x = x) :
    l.map f = l := by
  induction l with
  | nil => rfl
  | cons x t ih =>
      rw [List.map_cons, h x (by simp), ih (fun y hy => h y (by simp [hy]))]

/-! ## Claim theorems -/

/-- Claim C1: for an existing non-soft-deleted row for (account, key),
`Upsert` runs the single conditional update against that row's id; the
update succeeds exactly when some row carries that id, the candidate's
expected version and no soft-delete mark; on success it rewrites exactly
the matching row through `applyUpd` (version advanced by exactly 1,
device/blob/nonce and the update timestamp overwritten) and the matched
row's version equals the expected one; on zero matched rows it fails with
`VersionConflict` and leaves the table unchanged. -/
theorem C1_upsert_conditional_update (db : StateDB) (cand : EncryptedState)
    (exID : Nat) (now : Int) :
    (∀ ex, GetByKey db cand.accountID cand.key = some ex →
      Upsert db cand now = update db cand ex.id now) ∧
    ((update db cand exID now).2.isOk = true ↔
      ∃ r ∈ db.rows, updCond cand exID r = true) ∧
    (∀ r, db.rows.find? (updCond cand exID) = some r →
      update db cand exID now =
        ({ db with rows := db.rows.map (fun x => if updCond cand exID x then applyUpd cand now x else x) },
         Except.ok { cand with id := exID, version := r.version + 1, updatedAt := some now }) ∧
      r.version = cand.version ∧ r.deletedAt = none) ∧
    (db.rows.find? (updCond cand exID) = none →
      update db cand exID now = (db, Except.error RepoError.versionConflict)) := by
  refine ⟨?_, ?_, ?_, ?_⟩
  · intro ex h
    unfold Upsert
    rw [h]
  · unfold update
    cases h : db.rows.find? (updCond cand exID) with
    | none =>
        simp only [Except.isOk, Except.toBool]
        constructor
        · intro hh; exact absurd hh (by simp)
        · rintro ⟨r, hr, hc⟩
          exact absurd hc (by simpa using List.find?_eq_none.mp h r hr)
    | some r =>
        simp only [Except.isOk, Except.toBool]
        exact ⟨fun _ => ⟨r, List.mem_of_find?_eq_some h, List.find?_some h⟩, fun _ => trivial⟩
  · intro r h
    have hc := List.find?_some h
    unfold updCond at hc
    simp only [Bool.and_eq_true, beq_iff_eq] at hc
    refine ⟨?_, hc.1.2, hc.2⟩
    unfold update
    rw [h]
  · intro h
    unfold update
    rw [h]

/-- Witness for C1 at the concrete one-row table `dbW`: the matching
expected version 3 succeeds and rewrites the row, the stale expected
version 2 fails with `VersionConflict` leaving the table unchanged. -/
theorem C1_witness :
    (update dbW candW 10 20 =
      ({ dbW with rows := dbW.rows.map (fun x => if updCond candW 10 x then applyUpd candW 20 x else x) },
       Except.ok { candW with id := 10, version := rowW.version + 1, updatedAt := some 20 }) ∧
     rowW.version = candW.version ∧ rowW.deletedAt = none) ∧
    update dbW candStale 10 20 = (dbW, Except.error RepoError.versionConflict) :=
  ⟨(C1_upsert_conditional_update dbW candW 10 20).2.2.1 rowW (by decide),
   (C1_upsert_conditional_update dbW candStale 10 20).2.2.2 (by decide)⟩

/-- Claim C3: `Create` always succeeds (an already-expired expiry never
produces an invalid `SET`), and the write it performs on the primary
keyspace is exactly a `SET` with expiration `max 0 (expiry - now)` —
go-redis turns both a zero and a negative expiration into a plain `SET`
without TTL — while the id is added to the account's index set. -/
theorem C3_session_create_ttl (st : SessionStore) (now : Int) (s : Session) :
    ∃ st2 : SessionStore,
      SessionRepo.Create st now s = Except.ok st2 ∧
      rset st.kv now (sessionKey s.id) s (goRedisSetArgs (max 0 (s.expiresAt - now))) =
        Except.ok st2.kv ∧
      st2.sets = sadd st.sets (accountSessionsKey s.accountID) s.id := by
  rcases le_or_lt (s.expiresAt - now) 0 with h | h
  · have h1 : ¬ (s.expiresAt - now > 0) := by omega
    have h2 : max 0 (s.expiresAt - now) = 0 := max_eq_left h
    refine ⟨{ kv := setAssoc st.kv (sessionKey s.id) ⟨s, none⟩,
              sets := sadd st.sets (accountSessionsKey s.accountID) s.id }, ?_, ?_, rfl⟩
    · simp [SessionRepo.Create, goRedisSetArgs, rset, h1]
    · simp [goRedisSetArgs, rset, h2]
  · have h1 : ¬ (s.expiresAt - now ≤ 0) := by omega
    have h2 : max 0 (s.expiresAt - now) = s.expiresAt - now := max_eq_right (le_of_lt h)
    refine ⟨{ kv := setAssoc st.kv (sessionKey s.id) ⟨s, some (now + (s.expiresAt - now))⟩,
              sets := sadd st.sets (accountSessionsKey s.accountID) s.id }, ?_, ?_, rfl⟩
    · simp [SessionRepo.Create, goRedisSetArgs, rset, h, h1]
    · simp [goRedisSetArgs, rset, h2, h, h1]

/-- Claim C4 (code bug in `Delete`): with account 7's index still holding
`sidGone` but the primary record gone, `Delete` returns the wrapped
not-found error from the initial lookup and performs no index cleanup: the
id is still a member of the account's index afterwards. -/
theorem C4_delete_expired_session :
    SessionRepo.Delete stGone 100 sidGone =
      (stGone, Except.error (RepoError.wrap (r"failed to get session") RepoError.notFound)) ∧
    RepoError.is (RepoError.wrap (r"failed to get session") RepoError.notFound)
      RepoError.notFound = true ∧
    getSet ((SessionRepo.Delete stGone 100 sidGone).1).sets (accountSessionsKey 7) =
      [sidGone] := by
  refine ⟨rfl, rfl, ?_⟩
  decide

/-- Claim C10: when every row for the candidate's (account, key) is
soft-deleted — so `GetByKey` finds no active row but the uniqueness
constraint still sees a row — `Upsert` takes the insert path and fails with
the wrapped store error from the unique-constraint violation, which is not
`VersionConflict`, and the table is left unchanged. -/
theorem C10_soft_deleted_key_unwritable (db : StateDB) (cand : EncryptedState) (now : Int)
    (hactive : GetByKey db cand.accountID cand.key = none)
    (hrow : ∃ r ∈ db.rows, r.accountID = cand.accountID ∧ r.key = cand.key) :
    Upsert db cand now =
      (db, Except.error (RepoError.wrap (r"failed to create state")
        (RepoError.store (r"duplicate key value violates unique constraint")))) ∧
    RepoError.is
      (RepoError.wrap (r"failed to create state")
        (RepoError.store (r"duplicate key value violates unique constraint")))
      RepoError.versionConflict = false := by
  refine ⟨?_, by decide⟩
  unfold Upsert
  rw [hactive]
  unfold create keyRowExists
  rw [if_pos ?_]
  obtain ⟨r, hr, h1, h2⟩ := hrow
  exact List.any_eq_true.mpr ⟨r, hr, by simp [h1, h2]⟩

/-- Witness for C10 at the one-row table `dbSoftDel`, whose only row for
(1, `k`) is soft-deleted: the version-0 upsert fails with the wrapped
unique-constraint error. -/
theorem C10_witness :
    Upsert dbSoftDel candV0 9 =
      (dbSoftDel, Except.error (RepoError.wrap (r"failed to create state")
        (RepoError.store (r"duplicate key value violates unique constraint")))) ∧
    RepoError.is
      (RepoError.wrap (r"failed to create state")
        (RepoError.store (r"duplicate key value violates unique constraint")))
      RepoError.versionConflict = false :=
  C10_soft_deleted_key_unwritable dbSoftDel candV0 9 (by decide)
    ⟨rowDel, by decide, by decide, by decide⟩

/-- Claim C9: `GetByAccountID` returns a permutation of exactly the
non-soft-deleted rows of the account — membership is equivalent to being an
active row of the account — ordered by key ascending. -/
theorem C9_get_by_account (db : StateDB) (a : Nat) :
    List.Perm (GetByAccountID db a)
      (db.rows.filter (fun r => r.accountID == a && r.deletedAt == none)) ∧
    (GetByAccountID db a).Pairwise (fun x y => x.key ≤ y.key) ∧
    (∀ s : EncryptedState, s ∈ GetByAccountID db a ↔
      (s ∈ db.rows ∧ s.accountID = a ∧ s.deletedAt = none)) := by
  refine ⟨?_, ?_, ?_⟩
  · unfold GetByAccountID
    exact List.mergeSort_perm _ _
  · unfold GetByAccountID
    have hs : (List.mergeSort
        (db.rows.filter (fun r => r.accountID == a && r.deletedAt == none))
        (fun x y => decide (x.key ≤ y.key))).Pairwise
        (fun x y => decide (x.key ≤ y.key) = true) := by
      apply List.sorted_mergeSort
      · intro x y z hxy hyz
        simp only [decide_eq_true_eq] at hxy hyz ⊢
        exact le_trans hxy hyz
      · intro x y
        simp only [Bool.or_eq_true, decide_eq_true_eq]
        exact le_total x.key y.key
    exact hs.imp (fun h => by simpa using h)
  · intro s
    unfold GetByAccountID
    simp [List.mem_mergeSort, List.mem_filter, Bool.and_eq_true, beq_iff_eq]

/-- Claim C8: `GetPresence` never fails with not-found — any error it can
return does not match `ErrNotFound` —; an absent or expired record yields
the explicit offline record with zero (unknown) last-seen; and after a
`SetPresence` of an online presence at `t`, a read within the TTL window
returns the stored record: status online, last-seen stamped to `t`. -/
theorem C8_get_presence_total (st : PresenceStore) (now : Int) (d : Nat) :
    (∀ e, PresenceRepo.GetPresence st now d = Except.error e →
      RepoError.is e RepoError.notFound = false) ∧
    (rget st now (presenceKey d) = none →
      PresenceRepo.GetPresence st now d = Except.ok (PresenceRepo.offlinePresence d) ∧
      (PresenceRepo.offlinePresence d).status = r"offline" ∧
      (PresenceRepo.offlinePresence d).lastSeen = 0) ∧
    (∀ (p : Presence) (t now2 : Int),
      p.status = r"online" → now2 < t + presenceTTL →
      ∃ st2, PresenceRepo.SetPresence st t p = Except.ok st2 ∧
        PresenceRepo.GetPresence st2 now2 p.deviceID =
          Except.ok { p with lastSeen := t } ∧
        ({ p with lastSeen := t } : Presence).status = r"online") := by
  refine ⟨?_, ?_, ?_⟩
  · intro e h
    unfold PresenceRepo.GetPresence at h
    cases hr : rget st now (presenceKey d) with
    | none => rw [hr] at h; exact absurd h (by simp)
    | some v =>
        rw [hr] at h
        cases v with
        | pres p => exact absurd h (by simp [decodePresence])
        | garbage s =>
            simp only [decodePresence, Except.error.injEq] at h
            rw [← h]
            rfl
  · intro hr
    unfold PresenceRepo.GetPresence
    rw [hr]
    exact ⟨rfl, rfl, rfl⟩
  · intro p t now2 hstat hlt
    have hset : PresenceRepo.SetPresence st t p =
        Except.ok (setAssoc st (presenceKey p.deviceID)
          ⟨PVal.pres { p with lastSeen := t }, some (t + presenceTTL)⟩) := by
      unfold PresenceRepo.SetPresence goRedisSetArgs rset presenceTTL
      norm_num
    refine ⟨_, hset, ?_, by simp [hstat]⟩
    unfold PresenceRepo.GetPresence rget
    rw [getAssoc_setAssoc_self]
    simp [isLive, decodePresence, hlt]

/-- Claim C2 counterexample: in `dbSoftDel` no non-soft-deleted row exists
for the candidate's (account, key) — yet `Upsert` with expected version 0
does not succeed in inserting: the soft-deleted row still triggers the
uniqueness constraint, refuting the claim as stated. -/
theorem C2_counterexample :
    (∀ r ∈ dbSoftDel.rows, activeKeyMatch candV0.accountID candV0.key r = false) ∧
    candV0.version = 0 ∧
    (Upsert dbSoftDel candV0 5).2.isOk = false := by
  decide

/-- Claim C2 (amended): for an (account, key) with no row at all — not even
a soft-deleted one — `Upsert` inserts a row at version 1, ignoring the
candidate's expected version, and populates the candidate's generated id
and creation timestamp; a subsequent `Upsert` presenting version 1 advances
the stored version to 2; a further `Upsert` reusing version 1 fails with
`VersionConflict`, leaving the table unchanged. -/
theorem C2_fresh_key_sequence (db0 : StateDB) (c1 c2 c3 : EncryptedState) (n1 n2 n3 : Int)
    (hfresh : ∀ r ∈ db0.rows, (r.accountID == c1.accountID && r.key == c1.key) = false)
    (hids : ∀ r ∈ db0.rows, r.id < db0.nextID)
    (h2a : c2.accountID = c1.accountID) (h2k : c2.key = c1.key) (h2v : c2.version = 1)
    (h3a : c3.accountID = c1.accountID) (h3k : c3.key = c1.key) (h3v : c3.version = 1) :
    ∃ db1 c1r db2 c2r,
      Upsert db0 c1 n1 = (db1, Except.ok c1r) ∧
      c1r.version = 1 ∧ c1r.id = db0.nextID ∧ c1r.createdAt = n1 ∧
      Upsert db1 c2 n2 = (db2, Except.ok c2r) ∧ c2r.version = 2 ∧
      Upsert db2 c3 n3 = (db2, Except.error RepoError.versionConflict) := by
  have hakm0 : ∀ b k, b = c1.accountID → k = c1.key →
      ∀ r ∈ db0.rows, activeKeyMatch b k r = false := by
    intro b k hb hk r hr
    subst hb; subst hk
    unfold activeKeyMatch
    rw [hfresh r hr, Bool.false_and]
  have hgbk0 : GetByKey db0 c1.accountID c1.key = none :=
    find?_eq_none_of_all _ _ (hakm0 _ _ rfl rfl)
  have hkre0 : keyRowExists db0 c1.accountID c1.key = false := by
    unfold keyRowExists
    rw [List.any_eq_false]
    intro r hr
    simp [hfresh r hr]
  have hupd0 : ∀ c : EncryptedState, ∀ r ∈ db0.rows, updCond c db0.nextID r = false := by
    intro c r hr
    unfold updCond
    have : (r.id == db0.nextID) = false := by
      simp only [beq_eq_false_iff_ne, ne_eq]
      exact Nat.ne_of_lt (hids r hr)
    rw [this, Bool.false_and, Bool.false_and]
  refine ⟨⟨db0.rows ++ [insertedRow db0 c1 n1], db0.nextID + 1⟩,
    { c1 with id := db0.nextID, version := 1, createdAt := n1, updatedAt := none },
    ⟨db0.rows ++ [applyUpd c2 n2 (insertedRow db0 c1 n1)], db0.nextID + 1⟩,
    { c2 with id := db0.nextID, version := 1 + 1, updatedAt := some n2 },
    ?_, rfl, rfl, rfl, ?_, by norm_num, ?_⟩
  · unfold Upsert
    rw [hgbk0]
    unfold create
    rw [hkre0]
    simp
  · have hgbk1 : GetByKey ⟨db0.rows ++ [insertedRow db0 c1 n1], db0.nextID + 1⟩
        c2.accountID c2.key = some (insertedRow db0 c1 n1) := by
      unfold GetByKey
      rw [show (⟨db0.rows ++ [insertedRow db0 c1 n1], db0.nextID + 1⟩ : StateDB).rows =
        db0.rows ++ [insertedRow db0 c1 n1] from rfl]
      rw [List.find?_append, find?_eq_none_of_all _ _ (hakm0 _ _ h2a h2k), Option.none_or]
      simp [activeKeyMatch, insertedRow, h2a, h2k]
    have hfind_u : List.find? (updCond c2 db0.nextID)
        (db0.rows ++ [insertedRow db0 c1 n1]) = some (insertedRow db0 c1 n1) := by
      rw [List.find?_append, find?_eq_none_of_all _ _ (hupd0 c2), Option.none_or]
      simp [updCond, insertedRow, h2v]
    have hmap : (db0.rows ++ [insertedRow db0 c1 n1]).map
        (fun x => if updCond c2 db0.nextID x then applyUpd c2 n2 x else x) =
        db0.rows ++ [applyUpd c2 n2 (insertedRow db0 c1 n1)] := by
      rw [List.map_append,
        map_id_of_mem db0.rows _ (fun r hr => by rw [hupd0 c2 r hr]; simp)]
      simp [updCond, insertedRow, h2v]
    unfold Upsert
    rw [hgbk1]
    show update ⟨db0.rows ++ [insertedRow db0 c1 n1], db0.nextID + 1⟩ c2 db0.nextID n2 =
      (⟨db0.rows ++ [applyUpd c2 n2 (insertedRow db0 c1 n1)], db0.nextID + 1⟩,
       Except.ok { c2 with id := db0.nextID, version := 1 + 1, updatedAt := some n2 })
    unfold update
    rw [hfind_u]
    simp only [hmap]
    simp [insertedRow]
  · have hgbk2 : GetByKey
        ⟨db0.rows ++ [applyUpd c2 n2 (insertedRow db0 c1 n1)], db0.nextID + 1⟩
        c3.accountID c3.key = some (applyUpd c2 n2 (insertedRow db0 c1 n1)) := by
      unfold GetByKey
      rw [show (⟨db0.rows ++ [applyUpd c2 n2 (insertedRow db0 c1 n1)],
        db0.nextID + 1⟩ : StateDB).rows =
        db0.rows ++ [applyUpd c2 n2 (insertedRow db0 c1 n1)] from rfl]
      rw [List.find?_append, find?_eq_none_of_all _ _ (hakm0 _ _ h3a h3k), Option.none_or]
      simp [activeKeyMatch, applyUpd, insertedRow, h3a, h3k]
    have hfind_u3 : List.find? (updCond c3 db0.nextID)
        (db0.rows ++ [applyUpd c2 n2 (insertedRow db0 c1 n1)]) = none := by
      rw [List.find?_append, find?_eq_none_of_all _ _ (hupd0 c3), Option.none_or]
      simp [updCond, applyUpd, insertedRow, h3v]
    unfold Upsert
    rw [hgbk2]
    show update ⟨db0.rows ++ [applyUpd c2 n2 (insertedRow db0 c1 n1)], db0.nextID + 1⟩
        c3 db0.nextID n3 =
      (⟨db0.rows ++ [applyUpd c2 n2 (insertedRow db0 c1 n1)], db0.nextID + 1⟩,
       Except.error RepoError.versionConflict)
    unfold update
    rw [hfind_u3]

/-- Witness for the amended C2 on the empty table: create at version 1,
advance to 2 with expected version 1, conflict on reusing version 1. -/
theorem C2_witness :
    ∃ db1 c1r db2 c2r,
      Upsert dbFresh candF1 1 = (db1, Except.ok c1r) ∧
      c1r.version = 1 ∧ c1r.id = dbFresh.nextID ∧ c1r.createdAt = 1 ∧
      Upsert db1 candF2 2 = (db2, Except.ok c2r) ∧ c2r.version = 2 ∧
      Upsert db2 candF3 3 = (db2, Except.error RepoError.versionConflict) :=
  C2_fresh_key_sequence dbFresh candF1 candF2 candF3 1 2 3 (by decide) (by decide)
    (by decide) (by decide) (by decide) (by decide) (by decide) (by decide)

/-- Claim C5: `ListByAccountID` returns exactly the sessions whose primary
record was found live during the call (in index order), leaves the primary
keyspace untouched, removes from the account's index exactly the member ids
it found missing — the index afterwards holds exactly the members found
live — and touches no other account's index. -/
theorem C5_list_by_account (st : SessionStore) (now : Int) (a : Nat) :
    (SessionRepo.ListByAccountID st now a).2 =
      (getSet st.sets (accountSessionsKey a)).filterMap
        (fun id => rget st.kv now (sessionKey id)) ∧
    (SessionRepo.ListByAccountID st now a).1.kv = st.kv ∧
    getSet ((SessionRepo.ListByAccountID st now a).1).sets (accountSessionsKey a) =
      (getSet st.sets (accountSessionsKey a)).filter
        (fun id => (rget st.kv now (sessionKey id)).isSome) ∧
    (∀ k, k ≠ accountSessionsKey a →
      getSet ((SessionRepo.ListByAccountID st now a).1).sets k = getSet st.sets k) := by
  unfold SessionRepo.ListByAccountID
  cases hemp : (SessionRepo.listLoop st.kv now
      (getSet st.sets (accountSessionsKey a))).2.isEmpty with
  | false =>
    rw [if_neg (by simp)]
    refine ⟨listLoop_fst .., rfl, ?_, ?_⟩
    · rw [getSet_srem_self, listLoop_snd]
      apply List.filter_congr
      intro x hx
      cases h : rget st.kv now (sessionKey x) with
      | none =>
          have hmem : x ∈ (getSet st.sets (accountSessionsKey a)).filter
              (fun id => (rget st.kv now (sessionKey id)).isNone) :=
            List.mem_filter.mpr ⟨hx, by simp [h]⟩
          simp [List.contains, List.elem_iff, hmem, h]
      | some s =>
          have hmem : ¬ x ∈ (getSet st.sets (accountSessionsKey a)).filter
              (fun id => (rget st.kv now (sessionKey id)).isNone) := by
            intro hc
            have := (List.mem_filter.mp hc).2
            rw [h] at this
            simp at this
          simp [List.contains, List.elem_iff, hmem, h]
    · intro k hk
      exact getSet_srem_ne _ _ _ _ hk
  | true =>
    rw [if_pos rfl]
    refine ⟨listLoop_fst .., rfl, ?_, fun k _ => rfl⟩
    have hnil : (getSet st.sets (accountSessionsKey a)).filter
        (fun id => (rget st.kv now (sessionKey id)).isNone) = [] := by
      rw [← listLoop_snd st.kv now]
      exact List.isEmpty_iff.mp hemp
    rw [List.filter_eq_self.mpr]
    intro x hx
    have hnx := List.filter_eq_nil_iff.mp hnil x hx
    cases h : rget st.kv now (sessionKey x) with
    | none => rw [h] at hnx; simp at hnx
    | some s => simp

/-- Witness for C5 on `stList`: the live member `sidA` is returned, the
dead member `sidB` is removed from the index, and an unrelated key is left
alone. -/
theorem C5_witness :
    (SessionRepo.ListByAccountID stList 10 7).2 =
      (getSet stList.sets (accountSessionsKey 7)).filterMap
        (fun id => rget stList.kv 10 (sessionKey id)) ∧
    (SessionRepo.ListByAccountID stList 10 7).1.kv = stList.kv ∧
    getSet ((SessionRepo.ListByAccountID stList 10 7).1).sets (accountSessionsKey 7) =
      (getSet stList.sets (accountSessionsKey 7)).filter
        (fun id => (rget stList.kv 10 (sessionKey id)).isSome) ∧
    getSet ((SessionRepo.ListByAccountID stList 10 7).1).sets (accountSessionsKey 8) =
      getSet stList.sets (accountSessionsKey 8) :=
  ⟨(C5_list_by_account stList 10 7).1, (C5_list_by_account stList 10 7).2.1,
   (C5_list_by_account stList 10 7).2.2.1,
   (C5_list_by_account stList 10 7).2.2.2 (accountSessionsKey 8) (by decide)⟩

/-- Claim C6: `GetBulkPresence` returns a mapping whose key set is exactly
the requested id set, each requested id mapping to its per-device result;
ids whose key is missing (or expired) and ids whose stored value fails to
unmarshal both default to the explicit offline record. -/
theorem C6_bulk_presence (st : PresenceStore) (now : Int) (ids : List Nat) :
    ((PresenceRepo.GetBulkPresence st now ids).map Prod.fst).toFinset = ids.toFinset ∧
    (∀ d ∈ ids, PresenceRepo.mapGet (PresenceRepo.GetBulkPresence st now ids) d =
      some (PresenceRepo.bulkVal st now d)) ∧
    (∀ d, rget st now (presenceKey d) = none →
      PresenceRepo.bulkVal st now d = PresenceRepo.offlinePresence d) ∧
    (∀ d v, rget st now (presenceKey d) = some v → decodePresence v = none →
      PresenceRepo.bulkVal st now d = PresenceRepo.offlinePresence d) := by
  refine ⟨?_, ?_, ?_, ?_⟩
  · unfold PresenceRepo.GetBulkPresence
    rw [bulk_fold_keys]
    simp
  · intro d hd
    unfold PresenceRepo.GetBulkPresence
    rw [bulk_fold_get]
    simp [hd]
  · intro d h
    unfold PresenceRepo.bulkVal
    rw [h]
  · intro d v h hdec
    unfold PresenceRepo.bulkVal
    rw [h]
    simp [hdec]

/-- Witness for C6 on `stPres` with a mixed request: one live online device,
one device with an unparseable value, one never-seen device. -/
theorem C6_witness :
    ((PresenceRepo.GetBulkPresence stPres 10 [1, 2, 3]).map Prod.fst).toFinset =
      ([1, 2, 3] : List Nat).toFinset ∧
    PresenceRepo.mapGet (PresenceRepo.GetBulkPresence stPres 10 [1, 2, 3]) 1 =
      some (PresenceRepo.bulkVal stPres 10 1) ∧
    PresenceRepo.bulkVal stPres 10 2 = PresenceRepo.offlinePresence 2 ∧
    PresenceRepo.bulkVal stPres 10 3 = PresenceRepo.offlinePresence 3 :=
  ⟨(C6_bulk_presence stPres 10 [1, 2, 3]).1,
   (C6_bulk_presence stPres 10 [1, 2, 3]).2.1 1 (by decide),
   (C6_bulk_presence stPres 10 [1, 2, 3]).2.2.2 2 (PVal.garbage (r"x")) (by decide) (by decide),
   (C6_bulk_presence stPres 10 [1, 2, 3]).2.2.1 3 (by decide)⟩

/-- Claim C7 counterexample: in `stMixed` the member `sidDead` of account
7's index has no primary record, so its single-id delete fails — yet
`DeleteAllForAccount` still returns the bare success value `ok ()`, whose
type carries no information about which members failed, refuting the
reporting part of the claim. -/
theorem C7_counterexample :
    sidDead ∈ getSet stMixed.sets (accountSessionsKey 7) ∧
    (SessionRepo.Delete stMixed 10 sidDead).2.isOk = false ∧
    (SessionRepo.DeleteAllForAccount stMixed 10 7).2 = Except.ok () := by
  refine ⟨by decide, by decide, rfl⟩

/-- Claim C7 (amended): `DeleteAllForAccount` enumerates the account's
index and deletes each member via the single-id delete path, continuing
past per-item failures — afterwards no enumerated member still has a live
primary record — but it always returns the bare success value, logging
failures to standard output and discarding which members failed. -/
theorem C7_delete_all_best_effort (st : SessionStore) (now : Int) (a : Nat) :
    (SessionRepo.DeleteAllForAccount st now a).2 = Except.ok () ∧
    (SessionRepo.DeleteAllForAccount st now a).1 =
      (getSet st.sets (accountSessionsKey a)).foldl
        (fun s id => (SessionRepo.Delete s now id).1) st ∧
    (∀ id ∈ getSet st.sets (accountSessionsKey a),
      rget ((SessionRepo.DeleteAllForAccount st now a).1).kv now (sessionKey id) = none) := by
  refine ⟨rfl, rfl, ?_⟩
  intro id hid
  exact (deleteAll_fold_absent now (getSet st.sets (accountSessionsKey a)) st).2 id hid

/-- Witness for the amended C7 on `stMixed`: the run reports bare success
while both the dead and the live member end up without a primary record. -/
theorem C7_witness :
    (SessionRepo.DeleteAllForAccount stMixed 10 7).2 = Except.ok () ∧
    rget ((SessionRepo.DeleteAllForAccount stMixed 10 7).1).kv 10 (sessionKey sidDead) = none ∧
    rget ((SessionRepo.DeleteAllForAccount stMixed 10 7).1).kv 10 (sessionKey sidLive) = none :=
  ⟨(C7_delete_all_best_effort stMixed 10 7).1,
   (C7_delete_all_best_effort stMixed 10 7).2.2 sidDead (by decide),
   (C7_delete_all_best_effort stMixed 10 7).2.2 sidLive (by decide)⟩

/-- Witness for C8: on the empty keyspace the read yields the explicit
offline record, and after an online `SetPresence` at instant 5 a read at
instant 30 (within the 60-second window) yields the stored online record
with last-seen 5. -/
theorem C8_witness :
    (PresenceRepo.GetPresence stEmptyP 0 9 = Except.ok (PresenceRepo.offlinePresence 9) ∧
     (PresenceRepo.offlinePresence 9).status = r"offline" ∧
     (PresenceRepo.offlinePresence 9).lastSeen = 0) ∧
    (∃ st2, PresenceRepo.SetPresence stEmptyP 5 pOn = Except.ok st2 ∧
      PresenceRepo.GetPresence st2 30 pOn.deviceID = Except.ok { pOn with lastSeen := 5 } ∧
      ({ pOn with lastSeen := 5 } : Presence).status = r"online") :=
  ⟨(C8_get_presence_total stEmptyP 0 9).2.1 (by decide),
   (C8_get_presence_total stEmptyP 0 9).2.2 pOn 5 30 (by decide) (by decide)⟩

end EdgeSync
